import Mathlib

/-!
Shallow embedding of the glue code of the matrix-factorization notebook
(`python/tutorials/matrix_factorization.ipynb`): the `Batch`/`DataIter`
classes, the `max_id` scan, the `RMSE` metric and the `train` wrapper.
Python lists become Lean lists, Python 2 integers become `ℤ`/`ℕ`, Python
floats are modelled exactly as rationals (`ℚ`), and code that can raise
returns an `Option`.
-/

namespace MF

/-- A parsed rating record `(user_id, item_id, rating)`; the timestamp
column of the input file is discarded at parse time. -/
abbrev Record : Type := ℤ × ℤ × ℚ

/-- ASCII whitespace as stripped by Python 2 `str.strip()`. -/
def isPySpace (c : Char) : Bool :=
  c == ' ' || c == '\t' || c == '\n' || c == '\r' || c == '\x0b' || c == '\x0c'

/-- Python `str.strip()`: drop leading and trailing whitespace. -/
def pyStrip (s : List Char) : List Char :=
  ((s.dropWhile isPySpace).reverse.dropWhile isPySpace).reverse

/-- Python `str.split('\t')`: split at every tab, keeping empty fields
(so the empty string yields one empty field). -/
def splitTabs : List Char → List (List Char)
  | [] => [[]]
  | c :: cs =>
    if c = '\t' then [] :: splitTabs cs
    else
      match splitTabs cs with
      | [] => [[c]]
      | f :: rest => (c :: f) :: rest

/-- Value of a run of decimal digits. -/
def digitsToNat (ds : List Char) : ℕ :=
  ds.foldl (fun a c => a * 10 + (c.toNat - '0'.toNat)) 0

/-- A nonempty all-digit run, as a nonnegative integer. -/
def intOfDigits (ds : List Char) : Option ℤ :=
  if ds.isEmpty || !ds.all Char.isDigit then none else some (digitsToNat ds : ℤ)

/-- Python 2 `int(s)` on a decimal string: surrounding whitespace allowed,
optional single sign, then a nonempty digit run. -/
def parseInt (s : List Char) : Option ℤ :=
  match pyStrip s with
  | '+' :: ds => intOfDigits ds
  | '-' :: ds => (intOfDigits ds).map (fun z => -z)
  | ds => intOfDigits ds

/-- Tail of a Python float literal after the mantissa: either empty or an
`e`/`E` exponent with an optionally signed nonempty digit run; scales the
mantissa by `10 ^ exponent`. -/
def applyExp (m : ℚ) (r : List Char) : Option ℚ :=
  match r with
  | [] => some m
  | e :: r2 =>
    if e == 'e' || e == 'E' then
      let sd : ℤ × List Char :=
        match r2 with
        | '+' :: ds => (1, ds)
        | '-' :: ds => (-1, ds)
        | ds => (1, ds)
      if sd.2.isEmpty || !sd.2.all Char.isDigit then none
      else some (m * (10 : ℚ) ^ (sd.1 * (digitsToNat sd.2 : ℤ)))
    else none

/-- Unsigned body of a Python float literal: `digits`, `digits.digits` or
`.digits`, then an optional exponent. -/
def floatOfBody (t : List Char) : Option ℚ :=
  let ds1 := t.takeWhile Char.isDigit
  match t.dropWhile Char.isDigit with
  | '.' :: r2 =>
    let ds2 := r2.takeWhile Char.isDigit
    if ds1.isEmpty && ds2.isEmpty then none
    else applyExp ((digitsToNat ds1 : ℚ) + (digitsToNat ds2 : ℚ) / 10 ^ ds2.length)
      (r2.dropWhile Char.isDigit)
  | r1 =>
    if ds1.isEmpty then none else applyExp (digitsToNat ds1 : ℚ) r1

/-- Python 2 `float(s)` on a decimal literal: surrounding whitespace,
optional sign, mantissa, optional exponent (`inf`/`nan` and hex floats are
not modelled); the value is kept exact as a rational. -/
def parseFloat (s : List Char) : Option ℚ :=
  match pyStrip s with
  | '+' :: t => floatOfBody t
  | '-' :: t => (floatOfBody t).map (fun q => -q)
  | t => floatOfBody t

/-- The fields of one input line: `line.strip().split('\t')`. -/
def lineFields (line : List Char) : List (List Char) :=
  splitTabs (pyStrip line)

/-- The record extracted from one line with exactly 4 tab-separated fields:
`(int(tks[0]), int(tks[1]), float(tks[2]))`, timestamp discarded; `none`
when the field count is not 4 or a numeric field fails to parse. -/
def lineRecord (line : List Char) : Option Record :=
  match lineFields line with
  | [t0, t1, t2, _] =>
    match parseInt t0, parseInt t1, parseFloat t2 with
    | some u, some i, some r => some (u, i, r)
    | _, _, _ => none
  | _ => none

/-- Returns `true` iff the line splits into exactly 4 tab-separated fields. -/
def fourFields (line : List Char) : Bool :=
  (lineFields line).length == 4

/-- Well-formed line: exactly 4 tab-separated fields whose first two parse
as integers and whose third parses as a float. -/
def wellFormed (line : List Char) : Bool :=
  match lineFields line with
  | [t0, t1, t2, _] =>
    (parseInt t0).isSome && (parseInt t1).isSome && (parseFloat t2).isSome
  | _ => false

/-- The record list built by the loop of `DataIter.__init__`: a line whose
field count is not 4 is skipped silently; a 4-field line whose numeric
fields fail to parse raises, failing the whole construction (`none`). -/
def parseData : List (List Char) → Option (List Record)
  | [] => some []
  | line :: rest =>
    if fourFields line then
      match lineRecord line with
      | some r => (parseData rest).map (fun d => r :: d)
      | none => none
    else parseData rest

/-- The `Batch` object: named data arrays (`user`, `item`) and label arrays
(`score`); 1-D numeric arrays are rational lists (`mx.nd.array` stores ids
as floats). -/
structure Batch where
  data_names : List String
  data : List (List ℚ)
  label_names : List String
  label : List (List ℚ)
deriving DecidableEq, Inhabited

/-- The `Batch.provide_data` property: `[(n, x.shape) for n, x in zip(data_names, data)]`;
the shape of a 1-D array is its length. -/
def Batch.provide_data (b : Batch) : List (String × ℕ) :=
  List.zipWith (fun n x => (n, x.length)) b.data_names b.data

/-- The `Batch.provide_label` property, analogously. -/
def Batch.provide_label (b : Batch) : List (String × ℕ) :=
  List.zipWith (fun n x => (n, x.length)) b.label_names b.label

/-- The state of a `DataIter`: the configured batch size, the parsed record
list, and the name/shape metadata. -/
structure DataIter where
  batch_size : ℕ
  data : List Record
  provide_data : List (String × ℕ)
  provide_label : List (String × ℕ)
deriving DecidableEq

/-- Constructor `DataIter.__init__(fname, batch_size)`: parse the file and set the
metadata `[('user', (batch_size,)), ('item', (batch_size,))]` and
`[('score', (batch_size,))]`. -/
def DataIter.init (lines : List (List Char)) (batch_size : ℕ) : Option DataIter :=
  (parseData lines).map (fun d =>
    { batch_size := batch_size
      data := d
      provide_data := [("user", batch_size), ("item", batch_size)]
      provide_label := [("score", batch_size)] })

/-- The batch yielded at index `k` by `DataIter.__iter__`: the inner loop
reads records `j = k * batch_size + i` for `i < batch_size` and builds the
`users`, `items`, `scores` columns. -/
def mkBatch (data : List Record) (bs k : ℕ) : Batch :=
  { data_names := ["user", "item"]
    data := [(List.range bs).map (fun i => ((data.getD (k * bs + i) (0, 0, 0)).1 : ℚ)),
             (List.range bs).map (fun i => ((data.getD (k * bs + i) (0, 0, 0)).2.1 : ℚ))]
    label_names := ["score"]
    label := [(List.range bs).map (fun i => (data.getD (k * bs + i) (0, 0, 0)).2.2)] }

/-- The finite sequence of batches yielded by `DataIter.__iter__`: one per
`k in range(len(self.data) / self.batch_size)` (Python 2 floor division). -/
def batches (data : List Record) (bs : ℕ) : List Batch :=
  (List.range (data.length / bs)).map (mkBatch data bs)

/-- Swap elements `i` and `j` of a list (identity when out of bounds, which
the shuffle below never hits). -/
def listSwap (l : List α) (i j : ℕ) : List α :=
  if h : i < l.length ∧ j < l.length then
    (l.set i (l.get ⟨j, h.2⟩)).set j (l.get ⟨i, h.1⟩)
  else l

/-- Model of `random.shuffle(x)` (Fisher–Yates): for `i` from `len(x) - 1` down to 1,
swap `x[i]` with `x[j]` where `j = int(random() * (i+1))`.  The random draws
come from an oracle `g`, reduced mod `i + 1` exactly as the library
guarantees `0 ≤ j ≤ i`. -/
def pyShuffle (g : ℕ → ℕ) (l : List α) : List α :=
  (((List.range l.length).drop 1).reverse).foldl
    (fun acc i => listSwap acc i (g i % (i + 1))) l

/-- Method `DataIter.reset(self)`: `random.shuffle(self.data)` in place. -/
def DataIter.reset (it : DataIter) (g : ℕ → ℕ) : DataIter :=
  { it with data := pyShuffle g it.data }

/-- The accumulating loop of `max_id`: running maxima `mu`, `mi` (both
initialized to 0) over the 4-field lines; a 4-field line with a non-integer
id field raises (`none`). -/
def maxIdAux : List (List Char) → ℤ → ℤ → Option (ℤ × ℤ)
  | [], mu, mi => some (mu + 1, mi + 1)
  | line :: rest, mu, mi =>
    match lineFields line with
    | [t0, t1, _, _] =>
      match parseInt t0, parseInt t1 with
      | some u, some i => maxIdAux rest (max mu u) (max mi i)
      | _, _ => none
    | _ => maxIdAux rest mu mi

/-- Function `max_id(fname)`: returns `(mu + 1, mi + 1)` after the scan. -/
def max_id (lines : List (List Char)) : Option (ℤ × ℤ) :=
  maxIdAux lines 0 0

/-- The user ids of the 4-field lines of a file (those read by `max_id`). -/
def userIds (lines : List (List Char)) : List ℤ :=
  lines.filterMap (fun l =>
    match lineFields l with
    | [t0, _, _, _] => parseInt t0
    | _ => none)

/-- The item ids of the 4-field lines of a file. -/
def itemIds (lines : List (List Char)) : List ℤ :=
  lines.filterMap (fun l =>
    match lineFields l with
    | [_, t1, _, _] => parseInt t1
    | _ => none)

/-- The loop of `RMSE`: for `i in range(len(label))` read `label[i]` and
`pred[i]` (an out-of-range `pred[i]` raises `IndexError`, modelled `none`)
and accumulate `ret += (label[i] - pred[i])**2`, `n += 1.0`. -/
def rmseAux : List ℚ → List ℚ → ℚ → ℚ → Option (ℚ × ℚ)
  | [], _, ret, n => some (ret, n)
  | _ :: _, [], _, _ => none
  | a :: label, b :: pred, ret, n => rmseAux label pred (ret + (a - b) * (a - b)) (n + 1)

/-- Function `RMSE(label, pred)`: `math.sqrt(ret / n)` after the loop.
`pred.flatten()` on a 1-D array is the identity and is dropped; `ret / n`
with `n = 0` raises `ZeroDivisionError` (`none`). -/
noncomputable def RMSE (label pred : List ℚ) : Option ℝ :=
  (rmseAux label pred 0 0).bind (fun rn =>
    if rn.2 = 0 then none else some (Real.sqrt ((rn.1 / rn.2 : ℚ) : ℝ)))

/-- Modelled from the spec's formula, for comparison with `RMSE`:
`sqrt((1/n) * Σ_{i<n} (label[i] - pred[i])^2)` where `n = len(label)`. -/
noncomputable def rmseSpec (label pred : List ℚ) : ℝ :=
  Real.sqrt ((((1 / (label.length : ℚ)) *
    ((List.range label.length).map
      (fun i => (label.getD i 0 - pred.getD i 0) ^ 2)).sum : ℚ) : ℝ))

/-- Everything `train` hands to the external framework: the `FeedForward`
constructor arguments and the `fit` call's arguments. -/
structure TrainConfig (α : Type) where
  ctx_gpu : ℕ
  network : α
  num_epoch : ℕ
  learning_rate : ℚ
  wd : ℚ
  momentum : ℚ
  fit_X : Option DataIter
  fit_eval_data : Option DataIter
  fit_eval_metric : List ℚ → List ℚ → Option ℝ
  speedometer_batch_size : ℕ
  speedometer_frequency : ℕ

/-- Function `get_data(batch_size)`: the train/test iterators over the two data
files (their contents are the `base`/`test` parameters). -/
def get_data (base test : List (List Char)) (batch_size : ℕ) :
    Option DataIter × Option DataIter :=
  (DataIter.init base batch_size, DataIter.init test batch_size)

/-- Function `train(network, batch_size, num_epoch, learning_rate)`: builds the
model configuration, then overwrites `batch_size = 64` before calling
`get_data` and `model.fit` with the `RMSE` metric and a
`Speedometer(batch_size, 20000/batch_size)` callback. -/
noncomputable def train (base test : List (List Char)) (network : α)
    (batch_size num_epoch : ℕ) (learning_rate : ℚ) : TrainConfig α :=
  let batch_size := 64
  let d := get_data base test batch_size
  { ctx_gpu := 0
    network := network
    num_epoch := num_epoch
    learning_rate := learning_rate
    wd := 1 / 10000
    momentum := 9 / 10
    fit_X := d.1
    fit_eval_data := d.2
    fit_eval_metric := RMSE
    speedometer_batch_size := batch_size
    speedometer_frequency := 20000 / batch_size }

/-! ### List indexing helpers -/

/-- Reading `c` consecutive positions starting at `s` through `getD` is the
`take`/`drop` slice, provided the window fits in the list. -/
theorem getD_map_range_slice (l : List α) (d : α) :
    ∀ (c s : ℕ), s + c ≤ l.length →
      (List.range c).map (fun i => l.getD (s + i) d) = (l.drop s).take c := by
  intro c
  induction c with
  | zero => intro s _; simp
  | succ c ih =>
    intro s hs
    have hsl : s < l.length := by omega
    rw [List.range_succ_eq_map, List.map_cons, List.map_map,
      List.drop_eq_getElem_cons hsl, List.take_succ_cons]
    congr 1
    · rw [List.getD_eq_getElem l d (by omega : s + 0 < l.length)]
      simp
    · have harg : (fun i => l.getD (s + i.succ) d) = (fun i => l.getD (s + 1 + i) d) := by
        funext i
        congr 1
        omega
      calc (List.range c).map ((fun i => l.getD (s + i) d) ∘ Nat.succ)
          = (List.range c).map (fun i => l.getD (s + 1 + i) d) := by
            rw [show ((fun i => l.getD (s + i) d) ∘ Nat.succ) = fun i => l.getD (s + i.succ) d
              from rfl, harg]
        _ = (l.drop (s + 1)).take c := ih (s + 1) (by omega)

/-- Reading `getD` below the cut agrees with `getD` on the untruncated list. -/
theorem getD_take_eq (l : List α) (d : α) (c j : ℕ) (hj : j < c) :
    (l.take c).getD j d = l.getD j d := by
  rcases Nat.lt_or_ge j l.length with h | h
  · have hjt : j < (l.take c).length := by
      rw [List.length_take]
      omega
    rw [List.getD_eq_getElem _ _ hjt, List.getD_eq_getElem _ _ h]
    simp
  · rw [List.getD_eq_default _ _ (by rw [List.length_take]; omega),
      List.getD_eq_default _ _ h]

/-- All indices read while building batch `k` lie below `(len / bs) * bs`. -/
theorem batch_index_lt (n bs k i : ℕ) (hk : k < n / bs) (hi : i < bs) :
    k * bs + i < n / bs * bs := by
  have h1 : k * bs + i < (k + 1) * bs := by
    have : (k + 1) * bs = k * bs + bs := by ring
    omega
  have h2 : (k + 1) * bs ≤ n / bs * bs := Nat.mul_le_mul_right bs hk
  omega

/-! ### Claims about the batch iterator -/

/-- C1: for every record sequence and positive batch size, `__iter__` yields
exactly `len(data) / batch_size` (floor) batches, and the yielded batches
depend only on the first `len / bs * bs` records — the remainder records are
never yielded in any batch. -/
theorem claim1_batch_count_and_remainder (data : List Record) (bs : ℕ) (hbs : 0 < bs) :
    (batches data bs).length = data.length / bs ∧
      batches data bs = batches (data.take (data.length / bs * bs)) bs := by
  constructor
  · simp [batches]
  · have hmb : data.length / bs * bs ≤ data.length := Nat.div_mul_le_self _ _
    have hlen : (data.take (data.length / bs * bs)).length = data.length / bs * bs := by
      rw [List.length_take]
      omega
    have hdiv : (data.take (data.length / bs * bs)).length / bs = data.length / bs := by
      rw [hlen, Nat.mul_div_cancel _ hbs]
    unfold batches
    rw [hdiv]
    apply List.map_congr_left
    intro k hk
    rw [List.mem_range] at hk
    have hg : ∀ i ∈ List.range bs,
        data.getD (k * bs + i) (0, 0, 0) =
          (data.take (data.length / bs * bs)).getD (k * bs + i) (0, 0, 0) := by
      intro i hi
      rw [List.mem_range] at hi
      exact (getD_take_eq data (0, 0, 0) _ _ (batch_index_lt data.length bs k i hk hi)).symm
    have hu : (List.range bs).map (fun i => ((data.getD (k * bs + i) (0, 0, 0)).1 : ℚ)) =
        (List.range bs).map (fun i =>
          (((data.take (data.length / bs * bs)).getD (k * bs + i) (0, 0, 0)).1 : ℚ)) :=
      List.map_congr_left (fun i hi => by rw [hg i hi])
    have hv : (List.range bs).map (fun i => ((data.getD (k * bs + i) (0, 0, 0)).2.1 : ℚ)) =
        (List.range bs).map (fun i =>
          (((data.take (data.length / bs * bs)).getD (k * bs + i) (0, 0, 0)).2.1 : ℚ)) :=
      List.map_congr_left (fun i hi => by rw [hg i hi])
    have hw : (List.range bs).map (fun i => (data.getD (k * bs + i) (0, 0, 0)).2.2) =
        (List.range bs).map (fun i =>
          ((data.take (data.length / bs * bs)).getD (k * bs + i) (0, 0, 0)).2.2) :=
      List.map_congr_left (fun i hi => by rw [hg i hi])
    simp only [mkBatch]
    rw [hu, hv, hw]

/-- Witness for C1 at the spec's example: 5 records, batch size 2. -/
theorem claim1_witness :
    (batches [((1 : ℤ), (1 : ℤ), (1 : ℚ)), (2, 2, 2), (3, 3, 3), (4, 4, 4), (5, 5, 5)] 2).length =
        ([((1 : ℤ), (1 : ℤ), (1 : ℚ)), (2, 2, 2), (3, 3, 3), (4, 4, 4), (5, 5, 5)] :
          List Record).length / 2 ∧
      batches [((1 : ℤ), (1 : ℤ), (1 : ℚ)), (2, 2, 2), (3, 3, 3), (4, 4, 4), (5, 5, 5)] 2 =
        batches (([((1 : ℤ), (1 : ℤ), (1 : ℚ)), (2, 2, 2), (3, 3, 3), (4, 4, 4), (5, 5, 5)] :
          List Record).take
          (([((1 : ℤ), (1 : ℤ), (1 : ℚ)), (2, 2, 2), (3, 3, 3), (4, 4, 4), (5, 5, 5)] :
            List Record).length / 2 * 2)) 2 :=
  claim1_batch_count_and_remainder
    [((1 : ℤ), (1 : ℤ), (1 : ℚ)), (2, 2, 2), (3, 3, 3), (4, 4, 4), (5, 5, 5)] 2 (by decide)

/-- C4: the batch at index `k` consists of the `batch_size` consecutive
records `k*bs .. (k+1)*bs - 1` of the stored sequence, split into the user,
item and score columns, and every column of a yielded batch has length equal
to the configured batch size. -/
theorem claim4_batch_slice_and_lengths (data : List Record) (bs k : ℕ) (hbs : 0 < bs)
    (hk : k < data.length / bs) :
    (batches data bs)[k]? = some (mkBatch data bs k) ∧
      (mkBatch data bs k).data =
        [((data.drop (k * bs)).take bs).map (fun r => (r.1 : ℚ)),
         ((data.drop (k * bs)).take bs).map (fun r => (r.2.1 : ℚ))] ∧
      (mkBatch data bs k).label = [((data.drop (k * bs)).take bs).map (fun r => r.2.2)] ∧
      (∀ col ∈ (mkBatch data bs k).data, col.length = bs) ∧
      (∀ col ∈ (mkBatch data bs k).label, col.length = bs) := by
  have hwin : k * bs + bs ≤ data.length := by
    have h1 : (k + 1) * bs ≤ data.length / bs * bs := Nat.mul_le_mul_right bs hk
    have h2 : data.length / bs * bs ≤ data.length := Nat.div_mul_le_self _ _
    have h3 : (k + 1) * bs = k * bs + bs := by ring
    omega
  have hs : (List.range bs).map (fun i => data.getD (k * bs + i) (0, 0, 0)) =
      (data.drop (k * bs)).take bs := getD_map_range_slice data (0, 0, 0) bs (k * bs) hwin
  have hcol : ∀ (f : Record → ℚ),
      (List.range bs).map (fun i => f (data.getD (k * bs + i) (0, 0, 0))) =
        ((data.drop (k * bs)).take bs).map f := by
    intro f
    calc (List.range bs).map (fun i => f (data.getD (k * bs + i) (0, 0, 0)))
        = ((List.range bs).map (fun i => data.getD (k * bs + i) (0, 0, 0))).map f := by
          rw [List.map_map]
          rfl
      _ = ((data.drop (k * bs)).take bs).map f := by rw [hs]
  refine ⟨?_, ?_, ?_, ?_, ?_⟩
  · rw [batches, List.getElem?_map, List.getElem?_range hk]
    rfl
  · simp only [mkBatch]
    rw [hcol (fun r => (r.1 : ℚ)), hcol (fun r => (r.2.1 : ℚ))]
  · simp only [mkBatch]
    rw [hcol (fun r => r.2.2)]
  · intro col hcolmem
    simp only [mkBatch, List.mem_cons, List.mem_singleton] at hcolmem
    rcases hcolmem with rfl | rfl | h
    · simp
    · simp
    · simp at h
  · intro col hcolmem
    simp only [mkBatch, List.mem_singleton] at hcolmem
    subst hcolmem
    simp

/-- Witness for C4: batch 1 of 5 records with batch size 2 is records 2–3. -/
theorem claim4_witness :
    (batches [((1 : ℤ), (1 : ℤ), (1 : ℚ)), (2, 2, 2), (3, 3, 3), (4, 4, 4), (5, 5, 5)] 2)[1]? =
        some (mkBatch [((1 : ℤ), (1 : ℤ), (1 : ℚ)), (2, 2, 2), (3, 3, 3), (4, 4, 4), (5, 5, 5)]
          2 1) ∧
      (mkBatch [((1 : ℤ), (1 : ℤ), (1 : ℚ)), (2, 2, 2), (3, 3, 3), (4, 4, 4), (5, 5, 5)]
          2 1).data =
        [((([((1 : ℤ), (1 : ℤ), (1 : ℚ)), (2, 2, 2), (3, 3, 3), (4, 4, 4), (5, 5, 5)] :
            List Record).drop (1 * 2)).take 2).map (fun r => (r.1 : ℚ)),
         ((([((1 : ℤ), (1 : ℤ), (1 : ℚ)), (2, 2, 2), (3, 3, 3), (4, 4, 4), (5, 5, 5)] :
            List Record).drop (1 * 2)).take 2).map (fun r => (r.2.1 : ℚ))] ∧
      (mkBatch [((1 : ℤ), (1 : ℤ), (1 : ℚ)), (2, 2, 2), (3, 3, 3), (4, 4, 4), (5, 5, 5)]
          2 1).label =
        [((([((1 : ℤ), (1 : ℤ), (1 : ℚ)), (2, 2, 2), (3, 3, 3), (4, 4, 4), (5, 5, 5)] :
            List Record).drop (1 * 2)).take 2).map (fun r => r.2.2)] ∧
      (∀ col ∈ (mkBatch [((1 : ℤ), (1 : ℤ), (1 : ℚ)), (2, 2, 2), (3, 3, 3), (4, 4, 4), (5, 5, 5)]
          2 1).data, col.length = 2) ∧
      (∀ col ∈ (mkBatch [((1 : ℤ), (1 : ℤ), (1 : ℚ)), (2, 2, 2), (3, 3, 3), (4, 4, 4), (5, 5, 5)]
          2 1).label, col.length = 2) :=
  claim4_batch_slice_and_lengths
    [((1 : ℤ), (1 : ℤ), (1 : ℚ)), (2, 2, 2), (3, 3, 3), (4, 4, 4), (5, 5, 5)] 2 1
    (by decide) (by decide)

/-! ### Claims about the line parser -/

/-- A line that does not split into exactly 4 fields yields no record. -/
theorem lineRecord_eq_none_of_not_four (l : List Char) (h : ¬ fourFields l) :
    lineRecord l = none := by
  rw [fourFields] at h
  rcases hf : lineFields l with _ | ⟨t0, _ | ⟨t1, _ | ⟨t2, _ | ⟨t3, _ | rest⟩⟩⟩⟩ <;>
    simp [lineRecord, hf] <;> simp [hf] at h

/-- A line yields a record exactly when it is well-formed. -/
theorem lineRecord_isSome_eq_wellFormed (l : List Char) :
    (lineRecord l).isSome = wellFormed l := by
  rw [lineRecord, wellFormed]
  rcases hf : lineFields l with _ | ⟨t0, _ | ⟨t1, _ | ⟨t2, _ | ⟨t3, _ | rest⟩⟩⟩⟩ <;> simp
  cases parseInt t0 <;> cases parseInt t1 <;> cases parseFloat t2 <;> simp

/-- C2: on a file all of whose 4-field lines have parseable numeric fields,
`DataIter.__init__` succeeds and produces exactly one record per well-formed
line in order — keeping `(user_id, item_id, rating)` and discarding the
timestamp, which is what `lineRecord` extracts — while every line that does
not split into exactly 4 fields is skipped silently; hence the record count
equals the number of well-formed lines. -/
theorem claim2_parse_records (lines : List (List Char))
    (h : ∀ l ∈ lines, fourFields l → (lineRecord l).isSome) :
    parseData lines = some (lines.filterMap lineRecord) ∧
      (lines.filterMap lineRecord).length =
        (lines.filter (fun l => wellFormed l)).length := by
  constructor
  · induction lines with
    | nil => rfl
    | cons line rest ih =>
      have hrest : ∀ l ∈ rest, fourFields l → (lineRecord l).isSome :=
        fun l hl => h l (List.mem_cons_of_mem _ hl)
      by_cases hf : fourFields line
      · have hsome := h line (List.mem_cons_self _ _) hf
        rcases hr : lineRecord line with _ | r
        · rw [hr] at hsome
          simp at hsome
        · simp [parseData, hf, hr, ih hrest, List.filterMap_cons]
      · simp [parseData, hf, ih hrest, List.filterMap_cons,
          lineRecord_eq_none_of_not_four line hf]
  · clear h
    induction lines with
    | nil => rfl
    | cons line rest ih =>
      rw [List.filterMap_cons, List.filter_cons]
      rcases hr : lineRecord line with _ | r
      · have hw : wellFormed line = false := by
          rw [← lineRecord_isSome_eq_wellFormed, hr]
          rfl
        simp [hw, ih]
      · have hw : wellFormed line = true := by
          rw [← lineRecord_isSome_eq_wellFormed, hr]
          rfl
        simp [hw, ih]

/-- Witness for C2 at the spec's example file: two well-formed lines and one
malformed line. -/
theorem claim2_witness :
    parseData ["1\t2\t3\t0".data, "2\t3\t4\t0".data, "bad".data] =
        some (["1\t2\t3\t0".data, "2\t3\t4\t0".data, "bad".data].filterMap lineRecord) ∧
      (["1\t2\t3\t0".data, "2\t3\t4\t0".data, "bad".data].filterMap lineRecord).length =
        (["1\t2\t3\t0".data, "2\t3\t4\t0".data, "bad".data].filter
          (fun l => wellFormed l)).length :=
  claim2_parse_records ["1\t2\t3\t0".data, "2\t3\t4\t0".data, "bad".data] (by decide)

/-- C7: a file containing a line with exactly 4 fields whose numeric fields
do not parse makes the whole construction fail: `DataIter.__init__` raises
and no value is produced. -/
theorem claim7_malformed_field_fatal (lines : List (List Char))
    (h : ∃ l ∈ lines, fourFields l ∧ lineRecord l = none) :
    parseData lines = none := by
  induction lines with
  | nil => simp at h
  | cons line rest ih =>
    rcases h with ⟨l, hl, hf, hr⟩
    rcases List.mem_cons.mp hl with rfl | hl'
    · simp [parseData, hf, hr]
    · by_cases hf2 : fourFields line
      · rcases hr2 : lineRecord line with _ | r
        · simp [parseData, hf2, hr2]
        · simp [parseData, hf2, hr2, ih ⟨l, hl', hf, hr⟩]
      · simp [parseData, hf2, ih ⟨l, hl', hf, hr⟩]

/-- Witness for C7: a 4-field line with a non-float rating field aborts the
parse. -/
theorem claim7_witness : parseData ["1\t2\tx\t0".data] = none :=
  claim7_malformed_field_fatal ["1\t2\tx\t0".data] (by decide)

/-! ### Claims about `max_id` -/

/-- The `max_id` scan computes the running maxima, seeded by its
accumulators, over the ids of the 4-field lines. -/
theorem maxIdAux_eq : ∀ (lines : List (List Char)) (mu mi : ℤ) (p : ℤ × ℤ),
    maxIdAux lines mu mi = some p →
    p = ((userIds lines).foldl max mu + 1, (itemIds lines).foldl max mi + 1) := by
  intro lines
  induction lines with
  | nil =>
    intro mu mi p h
    simp [maxIdAux] at h
    simp [userIds, itemIds, ← h]
  | cons line rest ih =>
    intro mu mi p h
    rcases hf : lineFields line with _ | ⟨t0, _ | ⟨t1, _ | ⟨t2, _ | ⟨t3, _ | more⟩⟩⟩⟩ <;>
      rw [maxIdAux, hf] at h
    all_goals
      first
        | (rw [ih mu mi p h]
           simp [userIds, itemIds, List.filterMap_cons, hf])
        | (rcases h0 : parseInt t0 with _ | u
           · simp [h0] at h
           · rcases h1 : parseInt t1 with _ | i
             · simp [h0, h1] at h
             · simp only [h0, h1] at h
               rw [ih (max mu u) (max mi i) p h]
               simp [userIds, itemIds, List.filterMap_cons, hf, h0, h1])

/-- C10 counterexample: on a 4-field line with negative ids, `max_id` does
not return `(1 + max user id, 1 + max item id)` — the maxima are seeded with
0, so it returns `(1, 1)` instead of `(-4, -2)`. -/
theorem claim10_counterexample :
    max_id ["-5\t-3\t1\t0".data] = some (1, 1) ∧
      max_id ["-5\t-3\t1\t0".data] ≠ some (-5 + 1, -3 + 1) := by
  decide

/-- C10 (amended): whenever `max_id` returns a value (i.e. every 4-field
line has integer id fields), that value is `(m_u + 1, m_i + 1)` where `m_u`
and `m_i` are the folds of `max` seeded with 0 over the user resp. item ids
of exactly the 4-field lines; in particular a file with no 4-field line
gives `(1, 1)`. -/
theorem claim10_amended (lines : List (List Char)) (p : ℤ × ℤ)
    (h : max_id lines = some p) :
    p = ((userIds lines).foldl max 0 + 1, (itemIds lines).foldl max 0 + 1) :=
  maxIdAux_eq lines 0 0 p h

/-- Witness for the amended C10 on a concrete file. -/
theorem claim10_witness :
    ((8 : ℤ), (5 : ℤ)) =
      ((userIds ["1\t2\t9\t0".data, "7\t4\t9\t0".data, "bad".data]).foldl max 0 + 1,
       (itemIds ["1\t2\t9\t0".data, "7\t4\t9\t0".data, "bad".data]).foldl max 0 + 1) :=
  claim10_amended ["1\t2\t9\t0".data, "7\t4\t9\t0".data, "bad".data] (8, 5) (by decide)

/-! ### Claims about `RMSE` -/

/-- When `pred` is at least as long as `label`, the `RMSE` loop returns the
accumulated sum of squared differences and the iteration count. -/
theorem rmseAux_eq_sum : ∀ (label pred : List ℚ) (r n : ℚ),
    label.length ≤ pred.length →
    rmseAux label pred r n =
      some (r + ((List.range label.length).map
          (fun i => (label.getD i 0 - pred.getD i 0) ^ 2)).sum,
        n + label.length) := by
  intro label
  induction label with
  | nil =>
    intro pred r n _
    simp [rmseAux]
  | cons a label ih =>
    intro pred r n hlen
    cases pred with
    | nil => simp at hlen
    | cons b pred =>
      rw [rmseAux, ih pred (r + (a - b) * (a - b)) (n + 1) (by simpa using hlen)]
      simp only [Option.some.injEq, Prod.mk.injEq]
      constructor
      · rw [List.length_cons, List.range_succ_eq_map, List.map_cons, List.map_map]
        have harg : ((fun i => ((a :: label).getD i 0 - (b :: pred).getD i 0) ^ 2) ∘ Nat.succ)
            = fun i => (label.getD i 0 - pred.getD i 0) ^ 2 := by
          funext i
          simp [Function.comp]
        rw [harg]
        simp only [List.getD_cons_zero, List.sum_cons]
        ring
      · push_cast [List.length_cons]
        ring

/-- When `pred` is shorter than `label`, the loop hits an out-of-range
`pred[i]` and raises. -/
theorem rmseAux_eq_none : ∀ (label pred : List ℚ) (r n : ℚ),
    pred.length < label.length → rmseAux label pred r n = none := by
  intro label
  induction label with
  | nil =>
    intro pred r n h
    simp at h
  | cons a label ih =>
    intro pred r n h
    cases pred with
    | nil => rfl
    | cons b pred => exact ih pred _ _ (by simpa using h)

/-- C3 counterexample: on the equal-length pair `([], [])` the code raises
`ZeroDivisionError` and returns no value, while the claim's formula would
demand a (real) value. -/
theorem claim3_counterexample :
    RMSE ([] : List ℚ) ([] : List ℚ) ≠ some (rmseSpec [] []) := by
  simp [RMSE, rmseAux]

/-- C3 (amended): for every pair of equal-length sequences with at least one
element, `RMSE(label, pred)` equals
`sqrt((1/n) * Σ_{i<n} (label[i] - pred[i])^2)` with `n` the common length;
for the empty pair the code raises instead. -/
theorem claim3_amended (label pred : List ℚ) (hlen : label.length = pred.length)
    (hne : label ≠ []) : RMSE label pred = some (rmseSpec label pred) := by
  rw [RMSE, rmseAux_eq_sum label pred 0 0 (le_of_eq hlen)]
  have hnz : ((label.length : ℚ)) ≠ 0 := by
    rw [Nat.cast_ne_zero]
    simpa [List.length_eq_zero] using hne
  simp only [Option.some_bind, zero_add]
  rw [if_neg hnz, rmseSpec, one_div_mul_eq_div]

/-- Witness for the amended C3. -/
theorem claim3_witness :
    RMSE [1, 3] [2, 5] = some (rmseSpec [1, 3] [2, 5]) :=
  claim3_amended [1, 3] [2, 5] rfl (by decide)

/-- C5 counterexample: `RMSE(x, x) = 0` fails for the empty sequence — the
code raises `ZeroDivisionError` there instead of returning 0. -/
theorem claim5_counterexample : RMSE ([] : List ℚ) ([] : List ℚ) ≠ some 0 := by
  simp [RMSE, rmseAux]

/-- C5 (amended): for every nonempty sequence `x`, `RMSE(x, x) = 0`; and for
all equal-length `a`, `b`, `RMSE(a, b) = RMSE(b, a)` (the squared difference
is symmetric). -/
theorem claim5_amended (x a b : List ℚ) (hx : x ≠ []) (hab : a.length = b.length) :
    RMSE x x = some 0 ∧ RMSE a b = RMSE b a := by
  constructor
  · rw [RMSE, rmseAux_eq_sum x x 0 0 le_rfl]
    have hnz : ((x.length : ℚ)) ≠ 0 := by
      rw [Nat.cast_ne_zero]
      simpa [List.length_eq_zero] using hx
    have hzero : ((List.range x.length).map
        (fun i => (x.getD i 0 - x.getD i 0) ^ 2)).sum = 0 := by
      apply List.sum_eq_zero
      intro y hy
      rcases List.mem_map.mp hy with ⟨i, _, rfl⟩
      ring
    simp only [Option.some_bind, zero_add, hzero]
    rw [if_neg hnz]
    simp
  · rw [RMSE, RMSE, rmseAux_eq_sum a b 0 0 (le_of_eq hab),
      rmseAux_eq_sum b a 0 0 (le_of_eq hab.symm)]
    have hsq : (fun i => (b.getD i 0 - a.getD i 0) ^ 2)
        = fun i => (a.getD i 0 - b.getD i 0) ^ 2 := by
      funext i
      rw [← neg_sub (a.getD i 0) (b.getD i 0), neg_sq]
    simp only [Option.some_bind, zero_add]
    rw [hsq, ← hab]

/-- Witness for the amended C5. -/
theorem claim5_witness :
    RMSE [1, 2] [1, 2] = some 0 ∧ RMSE [1, 3] [2, 5] = RMSE [2, 5] [1, 3] :=
  claim5_amended [1, 2] [1, 3] [2, 5] (by decide) rfl

/-- C6 counterexample: a length mismatch with `pred` longer than `label`
does NOT fail — the extra predictions are silently ignored and a value is
returned. -/
theorem claim6_counterexample :
    ([(1 : ℚ)].length ≠ ([1, 2] : List ℚ).length) ∧ RMSE [1] [1, 2] ≠ none := by
  constructor
  · decide
  · simp [RMSE, rmseAux]

/-- C6 (amended): `RMSE(label, pred)` fails exactly when `pred` is shorter
than `label` (`IndexError`) or `label` is empty (`ZeroDivisionError`); when
`pred` is strictly longer and `label` is nonempty it silently returns a
value. -/
theorem claim6_amended (label pred : List ℚ) :
    RMSE label pred = none ↔ pred.length < label.length ∨ label = [] := by
  rcases Nat.lt_or_ge pred.length label.length with h | h
  · rw [RMSE, rmseAux_eq_none label pred 0 0 h]
    simp [h]
  · rw [RMSE, rmseAux_eq_sum label pred 0 0 h]
    have hnl : ¬ pred.length < label.length := Nat.not_lt.mpr h
    by_cases hz : label = []
    · subst hz
      simp
    · simp only [Option.some_bind, zero_add]
      rw [if_neg]
      · simp [hnl, hz]
      · simp only [Nat.cast_eq_zero, List.length_eq_zero]
        exact hz

/-! ### Claims about `reset` and `train` -/

/-- Pulling the `m`-th element to the front while overwriting position `m`
is a permutation. -/
theorem get_cons_set_perm : ∀ (t : List α) (m : ℕ) (h : m < t.length) (a : α),
    (t.get ⟨m, h⟩ :: t.set m a).Perm (a :: t) := by
  intro t
  induction t with
  | nil =>
    intro m h a
    simp at h
  | cons b s ih =>
    intro m h a
    cases m with
    | zero => exact List.Perm.swap a b s
    | succ k =>
      have hk : k < s.length := by simpa using h
      exact ((List.Perm.swap b (s.get ⟨k, hk⟩) (s.set k a)).trans
        (List.Perm.cons b (ih k hk a))).trans (List.Perm.swap a b s)

/-- Exchanging the entries at two positions is a permutation. -/
theorem set_set_perm : ∀ (l : List α) (i j : ℕ) (hi : i < l.length) (hj : j < l.length),
    ((l.set i (l.get ⟨j, hj⟩)).set j (l.get ⟨i, hi⟩)).Perm l := by
  intro l
  induction l with
  | nil =>
    intro i j hi hj
    simp at hi
  | cons a t ih =>
    intro i j hi hj
    cases i with
    | zero =>
      cases j with
      | zero => simp
      | succ m =>
        have hm : m < t.length := by simpa using hj
        exact get_cons_set_perm t m hm a
    | succ k =>
      cases j with
      | zero =>
        have hk : k < t.length := by simpa using hi
        exact get_cons_set_perm t k hk a
      | succ m =>
        have hk : k < t.length := by simpa using hi
        have hm : m < t.length := by simpa using hj
        exact List.Perm.cons a (ih k m hk hm)

/-- A single swap step of the shuffle permutes the list. -/
theorem listSwap_perm (l : List α) (i j : ℕ) : (listSwap l i j).Perm l := by
  rw [listSwap]
  split
  · rename_i h
    exact set_set_perm l i j h.1 h.2
  · exact List.Perm.refl l

/-- Folding swap steps over any index list permutes the list. -/
theorem foldl_listSwap_perm (g : ℕ → ℕ) :
    ∀ (idxs : List ℕ) (l : List α),
      (idxs.foldl (fun acc i => listSwap acc i (g i % (i + 1))) l).Perm l := by
  intro idxs
  induction idxs with
  | nil => intro l; exact List.Perm.refl l
  | cons i is ih =>
    intro l
    exact (ih (listSwap l i (g i % (i + 1)))).trans (listSwap_perm l i (g i % (i + 1)))

/-- The modelled `random.shuffle` permutes the list, for every random
oracle. -/
theorem pyShuffle_perm (g : ℕ → ℕ) (l : List α) : (pyShuffle g l).Perm l :=
  foldl_listSwap_perm g _ l

/-- C8: `reset` reshuffles the stored record sequence in place — the result
is a permutation of it (same multiset, same count) — and leaves
`batch_size`, `provide_data` and `provide_label` unchanged. -/
theorem claim8_reset_shuffles_in_place (it : DataIter) (g : ℕ → ℕ) :
    (it.reset g).data.Perm it.data ∧
      ((it.reset g).data : Multiset Record) = (it.data : Multiset Record) ∧
      (it.reset g).data.length = it.data.length ∧
      (it.reset g).batch_size = it.batch_size ∧
      (it.reset g).provide_data = it.provide_data ∧
      (it.reset g).provide_label = it.provide_label := by
  have hp : (it.reset g).data.Perm it.data := pyShuffle_perm g it.data
  exact ⟨hp, Multiset.coe_eq_coe.mpr hp, hp.length_eq, rfl, rfl, rfl⟩

/-- C9: `train` ignores its `batch_size` argument — the parameter is
unconditionally overwritten with the constant 64 before the iterators are
built and `fit` is invoked, so any two values give the identical
computation. -/
theorem claim9_train_ignores_batch_size {α : Type} (base test : List (List Char))
    (network : α) (bs1 bs2 num_epoch : ℕ) (learning_rate : ℚ) :
    train base test network bs1 num_epoch learning_rate =
      train base test network bs2 num_epoch learning_rate := rfl

end MF
